import Mathlib

/-
Shallow embedding of the autophone core: the persistent job queue
(src/jobs.py), the crash window and per-device worker state machine
(src/worker.py), and the status message encoder (src/phonetest.py),
together with theorems settling the specification claims.
-/

namespace Autophone

/-
Python's substring operator.  `sub_str n h` models the Python expression
`n in h` on strings: it decides whether `n` occurs contiguously inside `h`.
`SubStringOf` is the corresponding mathematical statement, used to state
specification claims independently of the executable decision procedure.
-/

/-- Boolean test that `n` is an initial segment of `h`. -/
def starts_with : List Char → List Char → Bool
  | [], _ => true
  | _ :: _, [] => false
  | c :: cs, d :: ds => c == d && starts_with cs ds

/-- Python's `n in h` for strings: `n` occurs contiguously in `h`. -/
def sub_str (n : List Char) : List Char → Bool
  | [] => n.isEmpty
  | c :: t => starts_with n (c :: t) || sub_str n t

/-- Mathematical statement of "`n` is a contiguous substring of `h`". -/
def SubStringOf (n h : List Char) : Prop := ∃ p q, p ++ n ++ q = h

/-
Job store (src/jobs.py, class Jobs).

A `JobRow` is a row of the single `jobs` table.  `id` models the SQLite
ROWID; SQLite assigns a new ROWID as one more than the largest ROWID
currently in the table (1 when the table is empty), so the ROWID of a
deleted row can be handed out again to a later insert.  `serial` is a ghost
tag never read by any operation: it numbers the inserts so that theorems can
speak about one inserted row across such an id reuse.  `created` and
`last_attempt` model the ISO-8601 timestamp strings of the original;
lexicographic order on those strings is chronological order, so they are
embedded as naturals.
-/

structure JobRow where
  serial : Nat
  id : Nat
  created : Nat
  last_attempt : Option Nat
  build_url : String
  attempts : Nat
  device : String
deriving DecidableEq, Repr, Inhabited

/-- The jobs table plus the ghost insert counter. -/
structure JobsDb where
  rows : List JobRow
  next_serial : Nat
deriving DecidableEq, Repr

def MAX_ATTEMPTS : Nat := 3

def SQL_MAX_RETRIES : Nat := 10

/-- SQLite ROWID assignment: one more than the largest ROWID in the table. -/
def fresh_rowid (rows : List JobRow) : Nat :=
  (rows.map JobRow.id).foldr max 0 + 1

/-- The row `Jobs.new_job` inserts: `(now, None, build_url, 0, device)`,
with the next ghost serial and the SQLite-assigned ROWID. -/
def inserted_row (db : JobsDb) (build_url device : String) (now : Nat) :
    JobRow :=
  { serial := db.next_serial, id := fresh_rowid db.rows, created := now,
    last_attempt := none, build_url := build_url, attempts := 0,
    device := device }

/-- `Jobs.new_job`: insert `(now, None, build_url, 0, device)`. -/
def new_job (db : JobsDb) (build_url device : String) (now : Nat) : JobsDb :=
  { rows := db.rows ++ [inserted_row db build_url device now],
    next_serial := db.next_serial + 1 }

/-- `Jobs.jobs_pending` (success path): `select count(ROWID) where device=?`. -/
def jobs_pending (db : JobsDb) (device : String) : Nat :=
  (db.rows.filter (fun r => r.device == device)).length

/-- The pruning DELETE of `get_next_job`:
`delete from jobs where device=? and attempts>=MAX_ATTEMPTS`. -/
def prune_exhausted (rows : List JobRow) (device : String) : List JobRow :=
  rows.filter (fun r => !(r.device == device && decide (MAX_ATTEMPTS ≤ r.attempts)))

/-- Head of `order by created desc` over a stable sort: the first row
carrying the maximal `created` value (later rows only win strictly). -/
def select_newest : List JobRow → Option JobRow
  | [] => none
  | r :: rs =>
    match select_newest rs with
    | none => some r
    | some s => if r.created < s.created then some s else some r

/-- `Jobs.get_next_job` (success path): prune exhausted rows for the device,
select that device's rows newest-first, and if one exists increment its
`attempts`, stamp `last_attempt`, and return the updated row.  (The Python
dict handed to the caller omits the `device` column; it is `device` by the
WHERE clause, so the full row is returned here.) -/
def get_next_job (db : JobsDb) (device : String) (now : Nat) :
    JobsDb × Option JobRow :=
  let rows1 := prune_exhausted db.rows device
  match select_newest (rows1.filter (fun r => r.device == device)) with
  | none => ({ db with rows := rows1 }, none)
  | some j =>
    let j2 := { j with attempts := j.attempts + 1, last_attempt := some now }
    ({ db with rows := rows1.map (fun r => if r.id = j.id then j2 else r) },
     some j2)

/-- `Jobs.job_completed`: `delete from jobs where ROWID=?`. -/
def job_completed (db : JobsDb) (job_id : Nat) : JobsDb :=
  { db with rows := db.rows.filter (fun r => !(r.id == job_id)) }

/-- `Jobs.clear_all`: `delete from jobs`. -/
def clear_all (db : JobsDb) : JobsDb := { db with rows := [] }

/-- One store operation of a history.  `nextFail` is a `get_next_job` call
whose SELECT or UPDATE raises `sqlite3.OperationalError` after the pruning
DELETE was committed: the caller sees `None` and only the prune persists. -/
inductive JobsOp where
  | new (build_url device : String) (now : Nat)
  | next (device : String) (now : Nat)
  | nextFail (device : String)
  | complete (job_id : Nat)
  | clear
deriving DecidableEq, Repr

/-- Effect of one operation: new state plus the row returned to the caller. -/
def jobs_step (db : JobsDb) : JobsOp → JobsDb × Option JobRow
  | .new u d now => (new_job db u d now, none)
  | .next d now => get_next_job db d now
  | .nextFail d => ({ db with rows := prune_exhausted db.rows d }, none)
  | .complete j => (job_completed db j, none)
  | .clear => (clear_all db, none)

/-- Run a history of operations, collecting every row returned in order. -/
def jobs_run : JobsDb → List JobsOp → JobsDb × List JobRow
  | db, [] => (db, [])
  | db, op :: ops =>
    ((jobs_run (jobs_step db op).1 ops).1,
     (jobs_step db op).2.toList ++ (jobs_run (jobs_step db op).1 ops).2)

/-- Fresh store (`jobs.sqlite` created empty). -/
def jobs_init : JobsDb := { rows := [], next_serial := 0 }

/-- All rows ever returned by `get_next_job` over a history from the fresh
store, in order of return. -/
def returns_of (ops : List JobsOp) : List JobRow := (jobs_run jobs_init ops).2

/-- The returns carrying ghost insert tag `s`. -/
def serial_returns (rs : List JobRow) (s : Nat) : List JobRow :=
  rs.filter (fun r => r.serial == s)

/-
Failure-aware layer for src/jobs.py.  `Jobs._conn` loops over
`sqlite3.connect` until one call succeeds; `report_sql_error` sleeps
`SQL_RETRY_DELAY` (and mails) exactly once, at the first failed attempt
whose number exceeds `SQL_MAX_RETRIES`.  The write operations (`new_job`,
`job_completed`, `clear_all`) wrap their statement in the same retry loop;
`get_next_job` and `jobs_pending` catch `OperationalError` from their
statements and return `None` / `0` instead — but the connection retry loop
inside `_conn` runs for them as well.
-/

/-- Attempts a `while True` retry loop makes when the k-th attempt fails
exactly when the k-th entry of the schedule is true (attempts beyond the
schedule succeed): the loop stops at the first success. -/
def retry_calls : List Bool → Nat
  | [] => 1
  | b :: bs => if b then retry_calls bs + 1 else 1

/-- Sleeps made by `report_sql_error` over the same schedule; `k` is the
current attempt number and `sent` the `email_sent` flag: a failed attempt
sleeps iff its number exceeds `SQL_MAX_RETRIES` and no mail was sent yet. -/
def retry_sleeps : List Bool → Nat → Bool → Nat
  | [], _, _ => 0
  | b :: bs, k, sent =>
    if b then
      if decide (SQL_MAX_RETRIES < k) && !sent then 1 + retry_sleeps bs (k + 1) true
      else retry_sleeps bs (k + 1) sent
    else 0

/-- Failure pattern of one store call: the outcomes of the successive
`sqlite3.connect` attempts inside `_conn`, and whether the first statement
executed on the open connection raises `OperationalError` (for
`get_next_job` that is the pruning DELETE, before anything is committed). -/
structure SqlFailure where
  connect_fails : List Bool
  exec_fail : Bool

/-- `Jobs.get_next_job` under a failure pattern: result, number of
`sqlite3.connect` calls made, and number of retry sleeps taken. -/
def get_next_job_fx (fx : SqlFailure) (db : JobsDb) (device : String)
    (now : Nat) : JobsDb × Option JobRow × Nat × Nat :=
  let calls := retry_calls fx.connect_fails
  let sleeps := retry_sleeps fx.connect_fails 1 false
  if fx.exec_fail then (db, none, calls, sleeps)
  else
    let r := get_next_job db device now
    (r.1, r.2, calls, sleeps)

/-- `Jobs.jobs_pending` under a failure pattern: count, connect calls,
sleeps. -/
def jobs_pending_fx (fx : SqlFailure) (db : JobsDb) (device : String) :
    Nat × Nat × Nat :=
  let calls := retry_calls fx.connect_fails
  let sleeps := retry_sleeps fx.connect_fails 1 false
  if fx.exec_fail then (0, calls, sleeps)
  else (jobs_pending db device, calls, sleeps)

/-- `Jobs.new_job` under a per-attempt statement failure schedule (connects
assumed clean): final state, number of insert attempts executed, sleeps. -/
def new_job_fx (exec_fails : List Bool) (db : JobsDb)
    (build_url device : String) (now : Nat) : JobsDb × Nat × Nat :=
  (new_job db build_url device now, retry_calls exec_fails,
   retry_sleeps exec_fails 1 false)

/-
Crash window (src/worker.py, class Crashes).
-/

structure Crashes where
  crash_times : List Int
  crash_window : Int
  crash_limit : Nat
deriving DecidableEq, Repr

/-- `Crashes.add_crash`: append `now`, then keep the entries within
`crash_window` of `crash_times[-1]` — which is the just-appended `now`. -/
def add_crash (c : Crashes) (now : Int) : Crashes :=
  { c with crash_times :=
      (c.crash_times ++ [now]).filter (fun x => decide (now - x ≤ c.crash_window)) }

/-- `Crashes.too_many_crashes`: `len(crash_times) >= crash_limit`. -/
def too_many_crashes (c : Crashes) : Bool :=
  decide (c.crash_limit ≤ c.crash_times.length)

/-- A fresh `Crashes(crash_window, crash_limit)`. -/
def crashes_init (crash_window : Int) (crash_limit : Nat) : Crashes :=
  { crash_times := [], crash_window := crash_window, crash_limit := crash_limit }

/-- A sequence of `add_crash` calls at the given times. -/
def add_crashes (c : Crashes) (ts : List Int) : Crashes := ts.foldl add_crash c

/-
Status messages (src/phonetest.py, class PhoneTestMessage).
-/

/-- A Python attribute value, as far as the encoder is concerned. -/
inductive PyAttr where
  | str (v : String)
  | optStr (v : Option String)
  | nat (v : Nat)
deriving DecidableEq, Repr

/-- The attributes `PhoneTestMessage.__init__` stores on the object. -/
structure PhoneTestMessage where
  phoneid : String
  status : String
  current_build : Option String
  msg : Option String
  timestamp : Nat
deriving DecidableEq, Repr

/-- Python attribute lookup on a `PhoneTestMessage`: exactly the fields set
by `__init__` resolve; any other name raises `AttributeError` (`none`). -/
def get_attr (m : PhoneTestMessage) : String → Option PyAttr
  | "phoneid" => some (.str m.phoneid)
  | "status" => some (.str m.status)
  | "current_build" => some (.optStr m.current_build)
  | "msg" => some (.optStr m.msg)
  | "timestamp" => some (.nat m.timestamp)
  | _ => none

/-- `PhoneTestMessage.JsonEncoder.default`: build the dict
`{phoneid, online, msg, timestamp}` by attribute access, in source order;
a failed lookup aborts the whole encoding (AttributeError). -/
def json_encoder_default (m : PhoneTestMessage) :
    Option (List (String × PyAttr)) := do
  let phoneid ← get_attr m "phoneid"
  let online ← get_attr m "online"
  let msg ← get_attr m "msg"
  let timestamp ← get_attr m "timestamp"
  pure [("phoneid", phoneid), ("online", online), ("msg", msg),
        ("timestamp", timestamp)]

/-
Worker state machine (src/worker.py, class PhoneWorkerSubProcess).

Device interactions are oracles: each Boolean says whether the
corresponding sequence of DeviceAgent calls succeeds.  `events` records, in
order, the statuses emitted through `status_update` (which also overwrites
`self.status`).
-/

inductive WStatus where
  | idle
  | installing
  | working
  | rebooting
  | disconnected
  | disabled
deriving DecidableEq, Repr

structure WState where
  status : WStatus
  events : List WStatus
  last_ping : Option Int
  current_build : Option Nat
  stop_requested : Bool
  base_paths_cleared : Bool
deriving DecidableEq, Repr

def PHONE_RETRY_LIMIT : Nat := 2

def PHONE_MAX_REBOOTS : Nat := 3

def PHONE_PING_INTERVAL : Int := 900

/-- `status_update`: set `self.status` and emit the message. -/
def status_update (st : WState) (s : WStatus) : WState :=
  { st with status := s, events := st.events ++ [s] }

/-- `has_error`: status is DISABLED or DISCONNECTED. -/
def has_error (st : WState) : Bool :=
  st.status == .disconnected || st.status == .disabled

/-- `phone_disconnected`: no-op when already in an error state, else emit
DISCONNECTED (the notification mail is not part of the modelled state). -/
def phone_disconnected (st : WState) : WState :=
  if has_error st then st else status_update st .disconnected

/-- `disable_phone`: emit DISABLED, unconditionally. -/
def disable_phone (st : WState) : WState :=
  status_update st .disabled

/-- Outcomes of one iteration of the `recover_phone` reboot loop:
`reboot_ok` is `dm.reboot` plus the truthy `getDeviceRoot` probe;
the other two are the stages of the `check_sdcard` it then runs. -/
structure RebootAttempt where
  reboot_ok : Bool
  sd_root_ok : Bool
  sd_ops_ok : Bool
deriving DecidableEq, Repr

/-- `check_sdcard`: on any failure clear each test's cached base device path
and report false; on success emit IDLE (unconditionally) and report true. -/
def check_sdcard (root_ok ops_ok : Bool) (st : WState) : WState × Bool :=
  if root_ok && ops_ok then (status_update st .idle, true)
  else ({ st with base_paths_cleared := true }, false)

/-- The `while reboots < PHONE_MAX_REBOOTS` loop of `recover_phone`:
reboot, verify the device root, run `check_sdcard`; when the reboots are
exhausted, `phone_disconnected`. -/
def recover_loop (sched : Nat → RebootAttempt) : Nat → Nat → WState → WState
  | 0, _, st => phone_disconnected st
  | fuel + 1, i, st =>
    let a := sched i
    if a.reboot_ok then
      let r := check_sdcard a.sd_root_ok a.sd_ops_ok st
      if r.2 then r.1 else recover_loop sched fuel (i + 1) r.1
    else recover_loop sched fuel (i + 1) st

/-- `recover_phone`. -/
def recover_phone (sched : Nat → RebootAttempt) (st : WState) : WState :=
  recover_loop sched PHONE_MAX_REBOOTS 0 st

/-- `reboot`: emit REBOOTING, then `recover_phone`. -/
def reboot (sched : Nat → RebootAttempt) (st : WState) : WState :=
  recover_phone sched (status_update st .rebooting)

/-- The command tuples drained from the command queue. -/
inductive Cmd where
  | stop
  | job
  | reboot
  | disable
  | enable
  | debug (level : Int)
  | ping
deriving DecidableEq, Repr

/-- Device-side oracles consulted while a command is handled. -/
structure CmdEnv where
  sched : Nat → RebootAttempt
  ping_ok : Bool

/-- `handle_cmd`. -/
def handle_cmd (env : CmdEnv) (st : WState) : Cmd → WState
  | .stop => { st with stop_requested := true }
  | .job => st
  | .reboot => reboot env.sched st
  | .disable => disable_phone st
  | .enable =>
    if has_error st then { status_update st .idle with last_ping := none }
    else st
  | .debug _ => st
  | .ping => st

/-- Handle a queue of commands in order. -/
def handle_cmds (env : CmdEnv) (st : WState) (cs : List Cmd) : WState :=
  cs.foldl (handle_cmd env) st

/-- The ping-interval guard of `handle_timeout`. -/
def ping_due (st : WState) (now : Int) : Bool :=
  match st.last_ping with
  | none => true
  | some lp => decide (PHONE_PING_INTERVAL < now - lp)

/-- `handle_timeout`. -/
def handle_timeout (env : CmdEnv) (now : Int) (st : WState) : WState :=
  if st.status == .disabled then st
  else if ping_due st now then
    let st1 := { st with last_ping := some now }
    if env.ping_ok then
      let st2 :=
        if st1.status == .disconnected then recover_phone env.sched st1 else st1
      if has_error st2 then st2 else status_update st2 .idle
    else if has_error st1 then st1 else phone_disconnected st1
  else st

/-- The error-recovery step of `main_loop` (worker.py lines 581-582): when
`has_error()` — which holds for DISABLED as well as DISCONNECTED — run
`recover_phone` before looking for a job. -/
def main_loop_recover (sched : Nat → RebootAttempt) (st : WState) : WState :=
  if has_error st then recover_phone sched st else st

/-- The `for attempt in range(PHONE_RETRY_LIMIT)` install loop of
`run_tests`: each iteration pushes, installs and removes `build.apk`
(counted), sets `success` on a clean pass, and sleeps `PHONE_RETRY_WAIT`
after a `DMError` (counted).  Returns (attempts executed, sleeps, success).
The loop body contains no `break`. -/
def install_loop (sched : Nat → Bool) : Nat → Nat → Bool → Nat × Nat × Bool
  | 0, _, success => (0, 0, success)
  | fuel + 1, i, success =>
    if sched i then
      let r := install_loop sched fuel (i + 1) true
      (r.1 + 1, r.2.1, r.2.2)
    else
      let r := install_loop sched fuel (i + 1) success
      (r.1 + 1, r.2.1 + 1, r.2.2)

/-- The install phase of `run_tests` (worker.py lines 381-404): emit
INSTALLING, run the install loop, and either record the build on success or
`phone_disconnected` and fail.  Returns (state, success, attempts executed,
sleeps). -/
def install_build (sched : Nat → Bool) (blddate : Nat) (st : WState) :
    WState × Bool × Nat × Nat :=
  let st1 := status_update st .installing
  let r := install_loop sched PHONE_RETRY_LIMIT 0 false
  if r.2.2 then ({ st1 with current_build := some blddate }, true, r.1, r.2.1)
  else (phone_disconnected st1, false, r.1, r.2.1)

/-
`handle_job` (src/worker.py lines 454-521): the ABI compatibility filter and
the per-device test selection filter, then the build-cache fetch and
`run_tests`.
-/

/-- The ABI filter of `handle_job`, exactly as the chained conditionals in
the source compute `incompatible_job`. -/
def abi_incompatible (abi : String) (build_url : List Char) : Bool :=
  if abi == "x86" then !sub_str "x86".toList build_url
  else if abi == "armeabi-v6" then !sub_str "armv6".toList build_url
  else sub_str "x86".toList build_url || sub_str "armv6".toList build_url

/-- A configured test, as far as `handle_job` inspects it. -/
structure TestCase where
  test_devices_repos : List (String × List (List Char))
  enable_unittests : Bool

/-- Python `test_devices_repos[phoneid]` guarded by the `in` check. -/
def lookup_repos (m : List (String × List (List Char))) (phoneid : String) :
    Option (List (List Char)) :=
  match m.find? (fun p => p.1 == phoneid) with
  | some p => some p.2
  | none => none

/-- The test-selection loop of `handle_job`: returns the final
`(skip_build, enable_unittests)` pair.  An empty `test_devices_repos`
accepts without touching `enable_unittests`; a repo match accepts and takes
that test's flag; `if not skip_build: break` ends the scan at the first
accepting test. -/
def select_tests (phoneid : String) (build_url : List Char) :
    List TestCase → Bool × Bool
  | [] => (true, false)
  | t :: rest =>
    if t.test_devices_repos.isEmpty then (false, false)
    else
      match lookup_repos t.test_devices_repos phoneid with
      | none => select_tests phoneid build_url rest
      | some repos =>
        match repos.find? (fun repo => sub_str repo build_url) with
        | some _ => (false, t.enable_unittests)
        | none => select_tests phoneid build_url rest

/-- The fields of the job dict that `handle_job` reads. -/
structure JobView where
  id : Nat
  build_url : List Char

/-- Observable effects of one `handle_job` call: whether `job_completed`
was called on the job's id, whether the build cache was queried (and with
which `enable_unittests` flag), and whether `run_tests` ran. -/
structure JobOutcome where
  completed : Bool
  fetched : Bool
  enable_unittests : Bool
  ran : Bool
deriving DecidableEq, Repr

/-- `handle_job`, with the cache fetch and `run_tests` outcomes as
oracles. -/
def handle_job (abi phoneid : String) (tests : List TestCase) (job : JobView)
    (cache_ok run_ok : Bool) : JobOutcome :=
  if abi_incompatible abi job.build_url then
    { completed := true, fetched := false, enable_unittests := false,
      ran := false }
  else
    let sel := select_tests phoneid job.build_url tests
    if sel.1 then
      { completed := true, fetched := false, enable_unittests := false,
        ran := false }
    else if !cache_ok then
      { completed := false, fetched := true, enable_unittests := sel.2,
        ran := false }
    else
      { completed := run_ok, fetched := true, enable_unittests := sel.2,
        ran := true }

/-
Invariant carried through job-store histories for claim C1: rows carry
pairwise distinct ghost serials and ROWIDs, attempts counts equal the
number of past returns of the same inserted row, and the returns of each
inserted row read 1, 2, ..., k with k bounded by MAX_ATTEMPTS.
-/

structure JobsInv (db : JobsDb) (rs : List JobRow) : Prop where
  serials_nodup : (db.rows.map JobRow.serial).Nodup
  ids_nodup : (db.rows.map JobRow.id).Nodup
  serial_lt : ∀ r ∈ db.rows, r.serial < db.next_serial
  ret_serial_lt : ∀ r ∈ rs, r.serial < db.next_serial
  row_count : ∀ r ∈ db.rows, r.attempts = (serial_returns rs r.serial).length
  attempts_le : ∀ r ∈ db.rows, r.attempts ≤ MAX_ATTEMPTS
  hist : ∀ s, (serial_returns rs s).map JobRow.attempts
            = List.range' 1 (serial_returns rs s).length
         ∧ (serial_returns rs s).length ≤ MAX_ATTEMPTS

/-
Concrete inputs used by counterexamples and witnesses.
-/

/-- A device whose reboot, device-root probe and SD-card check all pass. -/
def healthy_attempt : RebootAttempt :=
  { reboot_ok := true, sd_root_ok := true, sd_ops_ok := true }

def healthy_sched : Nat → RebootAttempt := fun _ => healthy_attempt

def env0 : CmdEnv := { sched := healthy_sched, ping_ok := true }

def disabled_state : WState :=
  { status := .disabled, events := [], last_ping := none,
    current_build := none, stop_requested := false,
    base_paths_cleared := false }

def idle_state : WState :=
  { status := .idle, events := [], last_ping := none, current_build := none,
    stop_requested := false, base_paths_cleared := false }

def disconnected_state : WState :=
  { status := .disconnected, events := [], last_ping := none,
    current_build := none, stop_requested := false,
    base_paths_cleared := false }

/-- History exercising ROWID reuse: one job fails out (three returns, then
pruned), after which a fresh insert receives the same ROWID 1 and is
returned with `attempts = 1`. -/
def c1_demo_ops : List JobsOp :=
  [.new "u" "D1" 0, .next "D1" 1, .next "D1" 2, .next "D1" 3,
   .next "D1" 4, .new "u" "D1" 5, .next "D1" 6]

/-- A store holding one pending job for device D1. -/
def c5_db : JobsDb := new_job jobs_init "u" "D1" 0

/-- A test whose empty device map accepts every build and which requests
unittests. -/
def c10_test : TestCase := { test_devices_repos := [], enable_unittests := true }

/-
Theorems.  General-purpose lemmas first, then one theorem per claim (with
its witness or counterexample where applicable).
-/

theorem starts_with_iff (n h : List Char) :
    starts_with n h = true ↔ ∃ q, n ++ q = h := by
  induction n generalizing h with
  | nil => simp [starts_with]
  | cons c cs ih =>
    cases h with
    | nil => simp [starts_with]
    | cons d ds =>
      simp [starts_with, Bool.and_eq_true, beq_iff_eq, ih, List.cons_append,
        List.cons.injEq, exists_and_left]

theorem sub_str_iff (n h : List Char) : sub_str n h = true ↔ SubStringOf n h := by
  induction h with
  | nil =>
    simp only [sub_str, SubStringOf, List.isEmpty_iff]
    constructor
    · rintro rfl
      exact ⟨[], [], rfl⟩
    · rintro ⟨p, q, hpq⟩
      rcases List.append_eq_nil.mp hpq with ⟨h1, h2⟩
      rcases List.append_eq_nil.mp h1 with ⟨-, h3⟩
      exact h3
  | cons c t ih =>
    simp only [sub_str, Bool.or_eq_true, starts_with_iff, ih]
    constructor
    · rintro (⟨q, hq⟩ | ⟨p, q, hpq⟩)
      · exact ⟨[], q, by simpa using hq⟩
      · exact ⟨c :: p, q, by simp [hpq]⟩
    · rintro ⟨p, q, hpq⟩
      cases p with
      | nil => exact Or.inl ⟨q, by simpa using hpq⟩
      | cons x p' =>
        simp only [List.cons_append, List.cons.injEq] at hpq
        exact Or.inr ⟨p', q, hpq.2⟩

/-- C9: the status serializer is claimed to succeed on every
`PhoneTestMessage` and to produce exactly the documented keys; in fact
`JsonEncoder.default` reads `obj.online`, an attribute `__init__` never
sets, so encoding raises `AttributeError` on every message and no JSON is
ever produced. -/
theorem C9_encoder_always_fails (m : PhoneTestMessage) :
    json_encoder_default m = none := rfl

/-- C2: a worker whose status is DISABLED is claimed to stay DISABLED under
worker-loop steps; in fact `main_loop` treats DISABLED as an error state
and calls `recover_phone`, whose successful `check_sdcard` unconditionally
emits IDLE — so one error-recovery step of the main loop moves a DISABLED
worker with a healthy device to IDLE without any enable command. -/
theorem C2_disabled_escapes_without_enable :
    disabled_state.status = WStatus.disabled
    ∧ has_error disabled_state = true
    ∧ (main_loop_recover healthy_sched disabled_state).status = WStatus.idle :=
  ⟨rfl, rfl, rfl⟩

/-- C3: the install loop of `run_tests` is claimed to stop after a
successful attempt; in fact the loop body has no `break` (unlike the
otherwise identical loops in `PhoneTest.install_profile` and
`PhoneTest.base_device_path`), so with a device that installs cleanly on
the first attempt the loop still executes both `PHONE_RETRY_LIMIT` install
attempts (here: 2 attempts, 0 sleeps, success). -/
theorem C3_install_continues_after_success :
    install_loop (fun _ => true) PHONE_RETRY_LIMIT 0 false = (2, 0, true)
    ∧ (install_build (fun _ => true) 7 idle_state).2.2.1 = 2 := ⟨rfl, rfl⟩

/-- C10: `enable_unittests` is claimed to be true iff at least one
accepting test requests unittests; in fact the selection loop stops at the
first accepting test, and a test accepted through an empty
`test_devices_repos` map never even reads that test's flag — a single
configured test with an empty map and `enable_unittests = True` is
accepted, yet the flag passed to the build cache is false. -/
theorem C10_enable_unittests_dropped :
    select_tests "D1" "mozilla-central-armv6".toList [c10_test] = (false, false)
    ∧ c10_test.enable_unittests = true
    ∧ (handle_job "armeabi-v6" "D1" [c10_test]
        { id := 1, build_url := "mozilla-central-armv6".toList }
        true true).enable_unittests = false := by
  refine ⟨rfl, rfl, ?_⟩
  decide

/-- C4 counterexample: from an IDLE worker, handling `disable` twice emits
two DISABLED status events, not one — `disable_phone` has no
already-in-error guard. -/
theorem C4_counterexample :
    (handle_cmds env0 idle_state [Cmd.disable, Cmd.disable]).events
      = [WStatus.disabled, WStatus.disabled]
    ∧ ((handle_cmds env0 idle_state [Cmd.disable, Cmd.disable]).events.countP
        (fun e => e == WStatus.disabled)) ≠ 1 := by
  refine ⟨rfl, ?_⟩
  decide

/-- C4 amended: processing `disable` twice emits exactly two DISABLED
status events (one per command — `disable_phone` emits unconditionally, so
the second disable is not a no-op), the status afterwards is DISABLED, and
it is `phone_disconnected`, not `disable_phone`, that is idempotent with
respect to the error state it sets. -/
theorem C4_amended (env : CmdEnv) (st : WState) :
    (handle_cmds env st [Cmd.disable, Cmd.disable]).events
      = st.events ++ [WStatus.disabled, WStatus.disabled]
    ∧ (handle_cmds env st [Cmd.disable, Cmd.disable]).status = WStatus.disabled
    ∧ (∀ st2, has_error st2 = true → phone_disconnected st2 = st2) := by
  refine ⟨?_, rfl, ?_⟩
  · simp [handle_cmds, handle_cmd, disable_phone, status_update]
  · intro st2 h
    simp [phone_disconnected, h]

theorem C4_amended_witness :
    (handle_cmds env0 idle_state [Cmd.disable, Cmd.disable]).status
      = WStatus.disabled
    ∧ phone_disconnected disconnected_state = disconnected_state :=
  ⟨(C4_amended env0 idle_state).2.1,
   (C4_amended env0 idle_state).2.2 disconnected_state (by decide)⟩

/-- C5 counterexample: a storage error hit while opening the connection is
retried inside `_conn` rather than turned into `None` — with one failing
`sqlite3.connect`, `get_next_job` makes 2 connect calls and still returns a
job; with 11 connect failures it also sleeps `SQL_RETRY_DELAY` once.  So
"on a storage error take_next returns none immediately, without retrying
or sleeping" is false. -/
theorem C5_counterexample :
    (get_next_job_fx { connect_fails := [true], exec_fail := false }
        c5_db "D1" 1).2.1 ≠ none
    ∧ (get_next_job_fx { connect_fails := [true], exec_fail := false }
        c5_db "D1" 1).2.2.1 = 2
    ∧ (get_next_job_fx ⟨List.replicate 11 true, true⟩ c5_db "D1" 1).2.2.2 = 1 := by
  refine ⟨?_, rfl, by decide⟩
  decide

/-- C5 amended: when the storage error occurs in statement execution (after
the connection is open), `get_next_job` returns `None` and `jobs_pending`
returns 0 immediately — exactly one connect call, no statement retry, no
sleep, state unchanged.  Storage errors while opening the connection,
however, are retried indefinitely inside `_conn` for every operation,
`get_next_job` and `jobs_pending` included: n consecutive connect failures
cost n+1 connect calls (so a store wedged at connect time blocks these
calls too), with one `SQL_RETRY_DELAY` sleep once `SQL_MAX_RETRIES` is
exceeded. -/
theorem C5_amended (db : JobsDb) (device : String) (now n : Nat) :
    get_next_job_fx { connect_fails := [], exec_fail := true } db device now
      = (db, none, 1, 0)
    ∧ jobs_pending_fx { connect_fails := [], exec_fail := true } db device
      = (0, 1, 0)
    ∧ retry_calls (List.replicate n true) = n + 1
    ∧ retry_sleeps (List.replicate 11 true) 1 false = 1 := by
  refine ⟨rfl, rfl, ?_, by decide⟩
  induction n with
  | zero => rfl
  | succ k ih => simp [List.replicate_succ, retry_calls, ih]

theorem add_crashes_limit (c : Crashes) (ts : List Int) :
    (add_crashes c ts).crash_limit = c.crash_limit := by
  induction ts generalizing c with
  | nil => rfl
  | cons t ts ih =>
    have := ih (add_crash c t)
    simpa [add_crashes, add_crash] using this

theorem add_crashes_window (c : Crashes) (ts : List Int) :
    (add_crashes c ts).crash_window = c.crash_window := by
  induction ts generalizing c with
  | nil => rfl
  | cons t ts ih =>
    have := ih (add_crash c t)
    simpa [add_crashes, add_crash] using this

/-- The crash list after a monotone sequence of `add_crash` calls is exactly
the set of recorded times within `crash_window` of the latest one. -/
theorem add_crashes_eq (w : Int) (lim : Nat) (ts : List Int)
    (hc : ts.Chain' (· ≤ ·)) (hne : ts ≠ []) :
    (add_crashes (crashes_init w lim) ts).crash_times
      = ts.filter (fun x => decide (ts.getLast hne - x ≤ w)) := by
  induction ts using List.reverseRecOn with
  | nil => exact absurd rfl hne
  | append_singleton ts' t ih =>
    by_cases h0 : ts' = []
    · subst h0
      simp [add_crashes, add_crash, crashes_init]
    · have hsplit := List.chain'_append.mp hc
      have hlast : ts'.getLast h0 ≤ t :=
        hsplit.2.2 (ts'.getLast h0)
          (by simp [List.getLast?_eq_getLast ts' h0]) t (by simp)
      have ihv := ih hsplit.1 h0
      have hfilter :
          (ts'.filter (fun x => decide (ts'.getLast h0 - x ≤ w))).filter
            (fun x => decide (t - x ≤ w))
          = ts'.filter (fun x => decide (t - x ≤ w)) := by
        rw [List.filter_filter]
        refine List.filter_congr ?_
        intro x hx
        by_cases hxt : t - x ≤ w
        · have hxl : ts'.getLast h0 - x ≤ w := le_trans (by omega) hxt
          simp [hxt, hxl]
        · simp [hxt]
      have hA : add_crashes (crashes_init w lim) (ts' ++ [t])
          = add_crash (add_crashes (crashes_init w lim) ts') t := by
        rw [add_crashes, add_crashes, List.foldl_append]
        rfl
      have hg : (ts' ++ [t]).getLast hne = t :=
        List.getLast_append_of_ne_nil (by simp)
      rw [hA, hg, add_crash, add_crashes_window, ihv]
      show ((ts'.filter (fun x => decide (ts'.getLast h0 - x ≤ w))) ++ [t]).filter
            (fun x => decide (t - x ≤ (crashes_init w lim).crash_window))
          = (ts' ++ [t]).filter (fun x => decide (t - x ≤ w))
      rw [show (crashes_init w lim).crash_window = w from rfl,
        List.filter_append, List.filter_append, hfilter]

/-- C6: after any monotone sequence of `add_crash` calls,
`too_many_crashes` is true iff at least `crash_limit` of the recorded
timestamps lie within `crash_window` seconds of the latest recorded
timestamp. -/
theorem C6_crash_window (w : Int) (lim : Nat) (ts : List Int)
    (hc : ts.Chain' (· ≤ ·)) (hne : ts ≠ []) :
    too_many_crashes (add_crashes (crashes_init w lim) ts) = true
      ↔ lim ≤ (ts.filter (fun x => decide (ts.getLast hne - x ≤ w))).length := by
  rw [too_many_crashes, add_crashes_eq w lim ts hc hne,
    add_crashes_limit (crashes_init w lim) ts]
  simp only [crashes_init, decide_eq_true_eq]

theorem C6_crash_window_witness :
    too_many_crashes (add_crashes (crashes_init 30 2) [0, 10, 40]) = true :=
  (C6_crash_window 30 2 [0, 10, 40]
      (by norm_num [List.chain'_cons, List.chain'_singleton])
      (by simp)).mpr (by norm_num)

/-- C7: `handle_job` applies the ABI filter exactly as specified — for abi
"x86" a job is compatible iff "x86" occurs in the build URL, for
"armeabi-v6" iff "armv6" occurs, and for any other abi iff the URL contains
neither — and every incompatible job is completed without fetching a build
or running any install or test. -/
theorem C7_abi_filter (abi phoneid : String) (tests : List TestCase)
    (job : JobView) (cache_ok run_ok : Bool) :
    (abi_incompatible abi job.build_url = false ↔
      (if abi = "x86" then SubStringOf "x86".toList job.build_url
       else if abi = "armeabi-v6" then SubStringOf "armv6".toList job.build_url
       else ¬SubStringOf "x86".toList job.build_url
            ∧ ¬SubStringOf "armv6".toList job.build_url))
    ∧ (abi_incompatible abi job.build_url = true →
        handle_job abi phoneid tests job cache_ok run_ok =
          { completed := true, fetched := false, enable_unittests := false,
            ran := false }) := by
  constructor
  · rw [abi_incompatible]
    by_cases h1 : abi = "x86"
    · simp [h1, ← sub_str_iff]
    · by_cases h2 : abi = "armeabi-v6"
      · simp [h1, h2, ← sub_str_iff]
      · simp [h1, h2, ← sub_str_iff]
  · intro h
    rw [handle_job, if_pos h]

theorem C7_abi_filter_witness :
    handle_job "x86" "D1" [] { id := 1, build_url := "armv6-build".toList }
        true true
      = { completed := true, fetched := false, enable_unittests := false,
          ran := false } :=
  (C7_abi_filter "x86" "D1" [] { id := 1, build_url := "armv6-build".toList }
      true true).2 (by decide)

theorem select_newest_append_max (xs : List JobRow) (n : JobRow)
    (h : ∀ r ∈ xs, r.created < n.created) :
    select_newest (xs ++ [n]) = some n := by
  induction xs with
  | nil => rfl
  | cons x xs ih =>
    have hx : x.created < n.created := h x (by simp)
    have ihv := ih (fun r hr => h r (by simp [hr]))
    rw [List.cons_append, select_newest, ihv]
    exact if_pos hx

/-- C8: enqueuing a job whose `created` stamp is newer than every pending
row for the device and immediately calling `get_next_job` for that device
returns it — same `build_url`, same `device`, `attempts` now 1. -/
theorem C8_enqueue_take_next (db : JobsDb) (build_url device : String)
    (now later : Nat)
    (h : ∀ r ∈ db.rows, r.device = device → r.created < now) :
    ((get_next_job (new_job db build_url device now) device later).2.map
        JobRow.build_url = some build_url)
    ∧ ((get_next_job (new_job db build_url device now) device later).2.map
        JobRow.device = some device)
    ∧ ((get_next_job (new_job db build_url device now) device later).2.map
        JobRow.attempts = some 1) := by
  have hp : prune_exhausted (new_job db build_url device now).rows device
      = prune_exhausted db.rows device
        ++ [inserted_row db build_url device now] := by
    rw [show (new_job db build_url device now).rows
        = db.rows ++ [inserted_row db build_url device now] from rfl]
    rw [prune_exhausted, prune_exhausted, List.filter_append]
    simp [inserted_row, MAX_ATTEMPTS]
  have hf : (prune_exhausted (new_job db build_url device now).rows
        device).filter (fun r => r.device == device)
      = (prune_exhausted db.rows device).filter (fun r => r.device == device)
        ++ [inserted_row db build_url device now] := by
    rw [hp, List.filter_append]
    simp [inserted_row]
  have hmem : ∀ r ∈ (prune_exhausted db.rows device).filter
      (fun r => r.device == device), r.created
        < (inserted_row db build_url device now).created := by
    intro r hr
    rw [List.mem_filter] at hr
    rcases hr with ⟨hr1, hr2⟩
    rw [prune_exhausted, List.mem_filter] at hr1
    exact h r hr1.1 (by simpa using hr2)
  have hsel : select_newest
      ((prune_exhausted (new_job db build_url device now).rows device).filter
        (fun r => r.device == device))
      = some (inserted_row db build_url device now) := by
    rw [hf]
    exact select_newest_append_max _ _ hmem
  have hmain : (get_next_job (new_job db build_url device now) device later).2
      = some { inserted_row db build_url device now with
               attempts := 1, last_attempt := some later } := by
    simp only [get_next_job]
    rw [hsel]
    rfl
  rw [hmain]
  exact ⟨rfl, rfl, rfl⟩

theorem C8_enqueue_take_next_witness :
    ((get_next_job (new_job jobs_init "url1" "D1" 0) "D1" 1).2.map
        JobRow.build_url = some "url1")
    ∧ ((get_next_job (new_job jobs_init "url1" "D1" 0) "D1" 1).2.map
        JobRow.device = some "D1")
    ∧ ((get_next_job (new_job jobs_init "url1" "D1" 0) "D1" 1).2.map
        JobRow.attempts = some 1) :=
  C8_enqueue_take_next jobs_init "url1" "D1" 0 1
    (by intro r hr _; simp [jobs_init] at hr)

theorem mem_le_foldr_max (l : List Nat) (x : Nat) (hx : x ∈ l) :
    x ≤ l.foldr max 0 := by
  induction l with
  | nil => cases hx
  | cons y t ih =>
    rcases List.mem_cons.mp hx with h | h
    · subst h
      exact le_max_left _ _
    · exact le_trans (ih h) (le_max_right _ _)

theorem fresh_rowid_gt (rows : List JobRow) :
    ∀ r ∈ rows, r.id < fresh_rowid rows := by
  intro r hr
  have : r.id ≤ (rows.map JobRow.id).foldr max 0 :=
    mem_le_foldr_max _ _ (List.mem_map_of_mem JobRow.id hr)
  rw [fresh_rowid]
  omega

theorem select_newest_mem {l : List JobRow} {j : JobRow}
    (h : select_newest l = some j) : j ∈ l := by
  induction l with
  | nil => cases h
  | cons x xs ih =>
    rw [select_newest] at h
    cases hx : select_newest xs with
    | none =>
      rw [hx] at h
      cases h
      exact List.mem_cons_self _ _
    | some s =>
      rw [hx] at h
      have h2 : (if x.created < s.created then some s else some x) = some j := h
      by_cases hc : x.created < s.created
      · rw [if_pos hc] at h2
        cases h2
        exact List.mem_cons_of_mem _ (ih hx)
      · rw [if_neg hc] at h2
        cases h2
        exact List.mem_cons_self _ _

theorem serial_returns_append (rs : List JobRow) (j : JobRow) (s : Nat) :
    serial_returns (rs ++ [j]) s
      = serial_returns rs s ++ if j.serial = s then [j] else [] := by
  rw [serial_returns, serial_returns, List.filter_append]
  by_cases hj : j.serial = s
  · simp [hj]
  · simp [hj]

theorem serial_returns_eq_nil {rs : List JobRow} {s : Nat}
    (h : ∀ r ∈ rs, r.serial ≠ s) : serial_returns rs s = [] := by
  rw [serial_returns, List.filter_eq_nil_iff]
  intro r hr
  simpa using h r hr

/-- Deleting rows (the pruning DELETE, `job_completed`, `clear_all`)
preserves the store invariant. -/
theorem jobs_inv_sublist {db : JobsDb} {rs : List JobRow}
    {rows2 : List JobRow} (hsub : rows2.Sublist db.rows) (h : JobsInv db rs) :
    JobsInv { rows := rows2, next_serial := db.next_serial } rs := by
  refine ⟨?_, ?_, ?_, h.ret_serial_lt, ?_, ?_, h.hist⟩
  · exact List.Nodup.sublist (hsub.map JobRow.serial) h.serials_nodup
  · exact List.Nodup.sublist (hsub.map JobRow.id) h.ids_nodup
  · intro r hr
    exact h.serial_lt r (hsub.subset hr)
  · intro r hr
    exact h.row_count r (hsub.subset hr)
  · intro r hr
    exact h.attempts_le r (hsub.subset hr)

/-- `new_job` preserves the store invariant: the new row gets a serial and
a ROWID fresh among the current rows, zero attempts, and no history. -/
theorem jobs_inv_new {db : JobsDb} {rs : List JobRow} (u d : String)
    (now : Nat) (h : JobsInv db rs) : JobsInv (new_job db u d now) rs := by
  have hrows : (new_job db u d now).rows
      = db.rows ++ [inserted_row db u d now] := rfl
  refine ⟨?_, ?_, ?_, ?_, ?_, ?_, h.hist⟩
  · rw [hrows, List.map_append, List.nodup_append]
    refine ⟨h.serials_nodup, by simp, ?_⟩
    intro a ha hb
    simp only [List.map_cons, List.map_nil, List.mem_cons,
      List.not_mem_nil, or_false] at hb
    rcases List.mem_map.mp ha with ⟨r, hr, hr2⟩
    have := h.serial_lt r hr
    rw [hr2] at this
    rw [hb] at this
    exact absurd this (lt_irrefl _)
  · rw [hrows, List.map_append, List.nodup_append]
    refine ⟨h.ids_nodup, by simp, ?_⟩
    intro a ha hb
    simp only [List.map_cons, List.map_nil, List.mem_cons,
      List.not_mem_nil, or_false] at hb
    rcases List.mem_map.mp ha with ⟨r, hr, hr2⟩
    have := fresh_rowid_gt db.rows r hr
    rw [hr2] at this
    rw [hb] at this
    exact absurd this (lt_irrefl _)
  · intro r hr
    rw [hrows] at hr
    rcases List.mem_append.mp hr with h1 | h1
    · exact lt_trans (h.serial_lt r h1) (Nat.lt_succ_self _)
    · rcases List.mem_singleton.mp h1 with rfl
      exact Nat.lt_succ_self _
  · intro r hr
    exact lt_trans (h.ret_serial_lt r hr) (Nat.lt_succ_self _)
  · intro r hr
    rw [hrows] at hr
    rcases List.mem_append.mp hr with h1 | h1
    · exact h.row_count r h1
    · rcases List.mem_singleton.mp h1 with rfl
      rw [serial_returns_eq_nil]
      · rfl
      · intro r2 hr2
        exact Nat.ne_of_lt (h.ret_serial_lt r2 hr2)
  · intro r hr
    rw [hrows] at hr
    rcases List.mem_append.mp hr with h1 | h1
    · exact h.attempts_le r h1
    · rcases List.mem_singleton.mp h1 with rfl
      exact Nat.zero_le _

/-- `get_next_job` preserves the store invariant: the pruning DELETE keeps
the selected row's attempts below `MAX_ATTEMPTS`, and the returned copy is
one past that row's return count. -/
theorem jobs_inv_next {db : JobsDb} {rs : List JobRow} (d : String)
    (now : Nat) (h : JobsInv db rs) :
    JobsInv (get_next_job db d now).1
      (rs ++ (get_next_job db d now).2.toList) := by
  rcases hsel : select_newest ((prune_exhausted db.rows d).filter
      (fun r => r.device == d)) with _ | j
  · have heq : get_next_job db d now
        = ({ db with rows := prune_exhausted db.rows d }, none) := by
      simp only [get_next_job]
      rw [hsel]
    rw [heq]
    simpa using jobs_inv_sublist (List.filter_sublist _) h
  · have inv1 : JobsInv ⟨prune_exhausted db.rows d, db.next_serial⟩ rs :=
      jobs_inv_sublist (List.filter_sublist _) h
    have hjf : j ∈ (prune_exhausted db.rows d).filter
        (fun r => r.device == d) := select_newest_mem hsel
    have hj1 : j ∈ prune_exhausted db.rows d := (List.mem_filter.mp hjf).1
    have hj0 : j ∈ db.rows := (List.filter_sublist _).subset hj1
    have hjd : j.device = d := by
      simpa using (List.mem_filter.mp hjf).2
    have hj1' : j ∈ db.rows.filter (fun r =>
        !(r.device == d && decide (MAX_ATTEMPTS ≤ r.attempts))) := hj1
    have hjatt : j.attempts < MAX_ATTEMPTS := by
      have hp := (List.mem_filter.mp hj1').2
      rw [hjd] at hp
      simp at hp
      omega
    have hcount : j.attempts = (serial_returns rs j.serial).length :=
      h.row_count j hj0
    have huniq : ∀ r ∈ prune_exhausted db.rows d, r.id = j.id → r = j := by
      intro r hr hid
      exact List.inj_on_of_nodup_map inv1.ids_nodup hr hj1 (by rw [hid])
    have huniqs : ∀ r ∈ prune_exhausted db.rows d, r.serial = j.serial → r = j := by
      intro r hr hsid
      exact List.inj_on_of_nodup_map inv1.serials_nodup hr hj1 (by rw [hsid])
    obtain ⟨j2, hj2⟩ :
        ∃ j2 : JobRow,
          j2 = { j with attempts := j.attempts + 1, last_attempt := some now } :=
      ⟨_, rfl⟩
    have hj2ser : j2.serial = j.serial := by rw [hj2]
    have hj2id : j2.id = j.id := by rw [hj2]
    have hj2att : j2.attempts = j.attempts + 1 := by rw [hj2]
    have heq : get_next_job db d now
        = (⟨(prune_exhausted db.rows d).map
              (fun r => if r.id = j.id then j2 else r), db.next_serial⟩,
           some j2) := by
      rw [hj2]
      simp only [get_next_job]
      rw [hsel]
    rw [heq]
    show JobsInv
      ⟨(prune_exhausted db.rows d).map (fun r => if r.id = j.id then j2 else r),
       db.next_serial⟩
      (rs ++ [j2])
    have hser_app : serial_returns (rs ++ [j2]) j.serial
        = serial_returns rs j.serial ++ [j2] := by
      rw [serial_returns_append]
      simp [hj2ser]
    have hser_other : ∀ s, s ≠ j.serial →
        serial_returns (rs ++ [j2]) s = serial_returns rs s := by
      intro s hs
      rw [serial_returns_append, hj2ser]
      simp [Ne.symm hs]
    have hgid : ∀ r ∈ prune_exhausted db.rows d,
        (if r.id = j.id then j2 else r).id = r.id := by
      intro r hr
      by_cases hid : r.id = j.id
      · rw [if_pos hid, hj2id, hid]
      · rw [if_neg hid]
    have hgserial : ∀ r ∈ prune_exhausted db.rows d,
        (if r.id = j.id then j2 else r).serial = r.serial := by
      intro r hr
      by_cases hid : r.id = j.id
      · rw [if_pos hid, hj2ser, huniq r hr hid]
      · rw [if_neg hid]
    refine ⟨?_, ?_, ?_, ?_, ?_, ?_, ?_⟩
    · show (((prune_exhausted db.rows d).map
          (fun r => if r.id = j.id then j2 else r)).map JobRow.serial).Nodup
      rw [List.map_map]
      have hm : (prune_exhausted db.rows d).map
          (JobRow.serial ∘ fun r => if r.id = j.id then j2 else r)
          = (prune_exhausted db.rows d).map JobRow.serial :=
        List.map_congr_left (fun r hr => hgserial r hr)
      rw [hm]
      exact inv1.serials_nodup
    · show (((prune_exhausted db.rows d).map
          (fun r => if r.id = j.id then j2 else r)).map JobRow.id).Nodup
      rw [List.map_map]
      have hm : (prune_exhausted db.rows d).map
          (JobRow.id ∘ fun r => if r.id = j.id then j2 else r)
          = (prune_exhausted db.rows d).map JobRow.id :=
        List.map_congr_left (fun r hr => hgid r hr)
      rw [hm]
      exact inv1.ids_nodup
    · intro r' hr'
      rcases List.mem_map.mp hr' with ⟨r, hr, rfl⟩
      show (if r.id = j.id then j2 else r).serial < db.next_serial
      rw [hgserial r hr]
      exact inv1.serial_lt r hr
    · intro r' hr'
      rcases List.mem_append.mp hr' with h1 | h1
      · exact h.ret_serial_lt r' h1
      · have h2 := List.mem_singleton.mp h1
        rw [h2, hj2ser]
        exact h.serial_lt j hj0
    · intro r' hr'
      rcases List.mem_map.mp hr' with ⟨r, hr, rfl⟩
      by_cases hid : r.id = j.id
      · have hrj : r = j := huniq r hr hid
        rw [if_pos hid, hj2att, hj2ser, hser_app, List.length_append, hcount]
        rfl
      · rw [if_neg hid]
        have hserne : r.serial ≠ j.serial := by
          intro hs
          exact hid (by rw [huniqs r hr hs])
        rw [hser_other r.serial hserne]
        exact inv1.row_count r hr
    · intro r' hr'
      rcases List.mem_map.mp hr' with ⟨r, hr, rfl⟩
      by_cases hid : r.id = j.id
      · rw [if_pos hid, hj2att]
        omega
      · rw [if_neg hid]
        exact inv1.attempts_le r hr
    · intro s
      by_cases hs : s = j.serial
      · subst hs
        rw [hser_app]
        constructor
        · rw [List.map_append, List.length_append]
          rw [(h.hist j.serial).1]
          show List.range' 1 (serial_returns rs j.serial).length
                ++ List.map JobRow.attempts [j2]
              = List.range' 1
                  ((serial_returns rs j.serial).length + List.length [j2])
          rw [show List.map JobRow.attempts [j2] = [j2.attempts] from rfl,
            hj2att, hcount,
            show List.length [j2] = 1 from rfl,
            List.range'_1_concat, Nat.add_comm 1]
        · rw [List.length_append]
          have h2 := (h.hist j.serial).2
          show (serial_returns rs j.serial).length + List.length [j2]
              ≤ MAX_ATTEMPTS
          rw [show List.length [j2] = 1 from rfl]
          rw [hcount] at hjatt
          omega
      · rw [hser_other s hs]
        exact h.hist s

theorem jobs_step_inv {db : JobsDb} {rs : List JobRow} (op : JobsOp)
    (h : JobsInv db rs) :
    JobsInv (jobs_step db op).1 (rs ++ (jobs_step db op).2.toList) := by
  cases op with
  | new u d now =>
    simp only [jobs_step, Option.toList_none, List.append_nil]
    exact jobs_inv_new u d now h
  | next d now => exact jobs_inv_next d now h
  | nextFail d =>
    simp only [jobs_step, Option.toList_none, List.append_nil]
    exact jobs_inv_sublist (List.filter_sublist _) h
  | complete jid =>
    simp only [jobs_step, Option.toList_none, List.append_nil]
    exact jobs_inv_sublist (List.filter_sublist _) h
  | clear =>
    simp only [jobs_step, Option.toList_none, List.append_nil]
    exact jobs_inv_sublist (List.nil_sublist _) h

theorem jobs_run_inv (ops : List JobsOp) (db : JobsDb) (rs : List JobRow)
    (h : JobsInv db rs) :
    JobsInv (jobs_run db ops).1 (rs ++ (jobs_run db ops).2) := by
  induction ops generalizing db rs with
  | nil => simpa [jobs_run] using h
  | cons op ops ih =>
    have h2 := ih (jobs_step db op).1 (rs ++ (jobs_step db op).2.toList)
      (jobs_step_inv op h)
    simp only [jobs_run]
    simpa [List.append_assoc] using h2

theorem jobs_init_inv : JobsInv jobs_init [] := by
  refine ⟨?_, ?_, ?_, ?_, ?_, ?_, ?_⟩ <;> simp [jobs_init, serial_returns]

/-- C1 amended: over any history of store operations from a fresh store,
each inserted row (identified by its ghost insert tag) is returned by
`get_next_job` with attempts values reading exactly 1, 2, ..., k — strictly
increasing, each at most MAX_ATTEMPTS — and is returned at most
MAX_ATTEMPTS times in total, because rows with
`attempts >= MAX_ATTEMPTS` are deleted before selection.  (Keyed by the
SQLite ROWID the caller sees, the claim fails: ROWIDs of deleted rows are
reused, see the counterexample.) -/
theorem C1_per_row_attempts (ops : List JobsOp) (s : Nat) :
    (serial_returns (returns_of ops) s).map JobRow.attempts
      = List.range' 1 (serial_returns (returns_of ops) s).length
    ∧ (serial_returns (returns_of ops) s).length ≤ MAX_ATTEMPTS := by
  have h2 := (jobs_run_inv ops jobs_init [] jobs_init_inv).hist s
  simpa [returns_of] using h2

/-- C1 counterexample: one job fails out (returned with attempts 1, 2, 3,
then pruned), the table becomes empty, and the next insert receives the
same ROWID 1; the fourth row returned for id 1 carries `attempts = 1`,
which is not greater than the previously returned 3 — so keyed by job id
the claimed strict increase (and the never-again-after-three-returns
property) fails. -/
theorem C1_counterexample :
    ((returns_of c1_demo_ops).map (fun r => (r.id, r.attempts))
      = [(1, 1), (1, 2), (1, 3), (1, 1)])
    ∧ ((returns_of c1_demo_ops).getD 3 default).id
        = ((returns_of c1_demo_ops).getD 2 default).id
    ∧ ¬(((returns_of c1_demo_ops).getD 2 default).attempts
        < ((returns_of c1_demo_ops).getD 3 default).attempts) := by
  refine ⟨?_, ?_, ?_⟩ <;> decide

end Autophone
